import Mathlib

/-!
Verification of the segmented key-value store in src/storage_router.py.

The Python module exposes five HTTP handlers over a single SQLite table

    automerge_storage(segment0, segment1, segment2, segment3, data,
                      PRIMARY KEY (segment0, segment1, segment2, segment3))

We embed the table as a list of rows; the SQL statements become the
corresponding list operations.  The PRIMARY KEY constraint means the table
can hold at most one row per 4-slot key, which the upsert preserves.
HTTP transport, base64 marshaling of response payloads and SQLite pragmas
are out of scope per the specification; a byte blob is modelled as a list
of naturals and handler outcomes as an Except over the two error kinds the
handlers raise (HTTP 400 bad request, HTTP 404 not found).
-/

namespace StorageRouter

/-- Opaque byte blob stored in the data column. -/
abbrev Bytes := List Nat

/-- One row of the automerge_storage table: the four segment columns
(kept as a list, always of length 4 for rows produced by the handlers)
plus the data blob. -/
structure Row where
  segs : List String
  data : Bytes
deriving DecidableEq, Repr

/-- The automerge_storage table. -/
abbrev DB := List Row

/-- The error responses the handlers raise via HTTPException:
status 400 (bad request) and status 404 (not found), each with its
detail string. -/
inductive ApiError where
  | badRequest (detail : String)
  | notFound (detail : String)
deriving DecidableEq, Repr

/-- MAX_SEGMENTS = 4 in storage_router.py. -/
def MAX_SEGMENTS : Nat := 4

/-- The padding computed inside pad_segments:
key + [""] * (MAX_SEGMENTS - len(key)). -/
def padded (key : List String) : List String :=
  key ++ List.replicate (MAX_SEGMENTS - key.length) ""

/-- pad_segments from storage_router.py: raises 400 when the key has more
than MAX_SEGMENTS segments, otherwise returns the key padded with empty
strings to exactly MAX_SEGMENTS slots. -/
def pad_segments (key : List String) : Except ApiError (List String) :=
  if key.length > MAX_SEGMENTS then
    .error (.badRequest "Key cannot have more than 4 segments")
  else
    .ok (padded key)

/-- The INSERT ... ON CONFLICT(segment0..segment3) DO UPDATE SET
data=excluded.data statement of save_chunk: if a row with the given
primary key exists its data is replaced, otherwise a new row is inserted.
The PRIMARY KEY constraint guarantees at most one conflicting row. -/
def upsert : DB → List String → Bytes → DB
  | [], segs, d => [⟨segs, d⟩]
  | r :: rs, segs, d =>
    if r.segs = segs then ⟨segs, d⟩ :: rs
    else r :: upsert rs segs d

/-- save_chunk (PUT /storage/item): 400 on an empty key, otherwise pads
the key and upserts the blob under the padded 4-slot key.  Returns the
table after the call together with the handler outcome. -/
def save_chunk (db : DB) (key : List String) (data : Bytes) :
    DB × Except ApiError Unit :=
  if key = [] then
    (db, .error (.badRequest "Key is required"))
  else
    match pad_segments key with
    | .error e => (db, .error e)
    | .ok segments => (upsert db segments data, .ok ())

/-- load_chunk (GET /storage/item): 400 on an empty key, otherwise pads
the key, runs SELECT data ... WHERE segment0=? AND ... AND segment3=? and
returns the blob of the matching row, or 404 when no row matches.  Reads
do not change the table. -/
def load_chunk (db : DB) (key : List String) : Except ApiError Bytes :=
  if key = [] then
    .error (.badRequest "Key is required")
  else
    match pad_segments key with
    | .error e => .error e
    | .ok segments =>
      match db.find? (fun r => r.segs == segments) with
      | none => .error (.notFound "Item not found")
      | some r => .ok r.data

/-- remove_chunk (DELETE /storage/item): 400 on an empty key, otherwise
pads the key and runs DELETE ... WHERE segment0=? AND ... AND segment3=?,
succeeding whether or not a row matched. -/
def remove_chunk (db : DB) (key : List String) : DB × Except ApiError Unit :=
  if key = [] then
    (db, .error (.badRequest "Key is required"))
  else
    match pad_segments key with
    | .error e => (db, .error e)
    | .ok segments => (db.filter (fun r => !(r.segs == segments)), .ok ())

/-- The WHERE clause built by load_range and remove_range:
segment0 = key[0] AND ... AND segment{n-1} = key[n-1] for n = len(key),
i.e. the first len(key) segment columns of the row equal the given
prefix segments. -/
def segMatch (key : List String) (r : Row) : Bool :=
  r.segs.take key.length == key

/-- The key reconstruction in load_range:
[row[i] for i in range(MAX_SEGMENTS) if row[i] != ""], i.e. every
empty-string slot of the stored key is dropped, not only the padding. -/
def decodeSlots (slots : List String) : List String :=
  slots.filter (fun s => !(s == ""))

/-- One element of the JSON list returned by load_range: the
reconstructed logical key and the blob (returned base64-encoded on the
wire; payload marshaling is out of scope, so the blob is kept as is). -/
structure RangeItem where
  key : List String
  data : Bytes
deriving DecidableEq, Repr

/-- load_range (GET /storage/range): 400 when the prefix is empty or has
more than MAX_SEGMENTS segments, otherwise selects every row whose first
len(key) segment columns equal the prefix and returns each with its
reconstructed logical key. -/
def load_range (db : DB) (key : List String) :
    Except ApiError (List RangeItem) :=
  if key = [] ∨ MAX_SEGMENTS < key.length then
    .error (.badRequest "Prefix must have between 1 and 4 segments")
  else
    .ok ((db.filter (segMatch key)).map
      (fun r => { key := decodeSlots r.segs, data := r.data }))

/-- remove_range (DELETE /storage/range): 400 when the prefix is empty or
has more than MAX_SEGMENTS segments, otherwise deletes every row whose
first len(key) segment columns equal the prefix, succeeding even when no
row matches. -/
def remove_range (db : DB) (key : List String) : DB × Except ApiError Unit :=
  if key = [] ∨ MAX_SEGMENTS < key.length then
    (db, .error (.badRequest "Prefix must have between 1 and 4 segments"))
  else
    (db.filter (fun r => !(segMatch key r)), .ok ())

/-- Recognises the InvalidKey outcome: an HTTPException with status 400. -/
def isInvalidKey {α : Type} : Except ApiError α → Bool
  | .error (.badRequest _) => true
  | _ => false

instance {ε α : Type} [DecidableEq ε] [DecidableEq α] :
    DecidableEq (Except ε α) := fun x y =>
  match x, y with
  | .ok a, .ok b => if h : a = b then .isTrue (by simp [h]) else .isFalse (by simp [h])
  | .error a, .error b => if h : a = b then .isTrue (by simp [h]) else .isFalse (by simp [h])
  | .ok _, .error _ => .isFalse (by simp)
  | .error _, .ok _ => .isFalse (by simp)

/-- After an upsert under a key, the first row found under that key holds
the upserted blob. -/
theorem upsert_find (db : DB) (segs : List String) (d : Bytes) :
    (upsert db segs d).find? (fun r => r.segs == segs) = some ⟨segs, d⟩ := by
  induction db with
  | nil => simp [upsert]
  | cons r rs ih =>
    by_cases h : r.segs = segs
    · simp [upsert, h]
    · simp [upsert, h, ih]

/-- An upsert under a key leaves exactly max(previous count, 1) rows under
that key: one when none existed, and the existing count otherwise. -/
theorem upsert_countP_self (db : DB) (segs : List String) (d : Bytes) :
    (upsert db segs d).countP (fun r => r.segs == segs) =
      max (db.countP (fun r => r.segs == segs)) 1 := by
  induction db with
  | nil => simp [upsert]
  | cons r rs ih =>
    by_cases h : r.segs = segs
    · simp [upsert, h, List.countP_cons]
    · simp [upsert, h, List.countP_cons, ih]

/-- An upsert under one key does not change the number of rows under any
other key. -/
theorem upsert_countP_other (db : DB) (segs : List String) (d : Bytes)
    (s : List String) (h : s ≠ segs) :
    (upsert db segs d).countP (fun r => r.segs == s) =
      db.countP (fun r => r.segs == s) := by
  induction db with
  | nil => simp [upsert, List.countP_cons, Ne.symm h]
  | cons r rs ih =>
    by_cases hr : r.segs = segs
    · simp [upsert, hr, List.countP_cons, Ne.symm h]
    · simp [upsert, hr, List.countP_cons, ih]

/-- A point delete leaves no row under the deleted key. -/
theorem find?_after_delete (db : DB) (segs : List String) :
    (db.filter (fun r => !(r.segs == segs))).find? (fun r => r.segs == segs) =
      none := by
  rw [List.find?_eq_none]
  intro r hr
  simp only [List.mem_filter] at hr
  simpa using hr.2

/-- The equality filter on a leading run of columns is the same as
slot-by-slot equality at every index below the prefix length. -/
theorem take_eq_iff_pointwise (l k : List String) (h : k.length ≤ l.length) :
    l.take k.length = k ↔ ∀ i, i < k.length → l.getD i "" = k.getD i "" := by
  induction k generalizing l with
  | nil => simp
  | cons a ks ih =>
    cases l with
    | nil => simp at h
    | cons b ls =>
      simp only [List.length_cons, List.take_succ_cons, List.cons.injEq]
      constructor
      · rintro ⟨rfl, htake⟩ i hi
        cases i with
        | zero => rfl
        | succ j =>
          simp only [List.getD_cons_succ]
          exact ((ih ls (by simpa using h)).mp htake) j (by simpa using hi)
      · intro hpt
        refine ⟨by simpa using hpt 0 (by omega), ?_⟩
        refine (ih ls (by simpa using h)).mpr (fun j hj => ?_)
        simpa using hpt (j + 1) (by omega)

/-- Padding a valid key succeeds and appends the empty slots. -/
theorem pad_segments_ok (k : List String) (h : k.length ≤ MAX_SEGMENTS) :
    pad_segments k = .ok (padded k) := by
  simp [pad_segments, Nat.not_lt.mpr h]

/-- C1: for every key sequence k of 1 to 4 arbitrary strings and every
byte payload v (including the empty payload), Put(k, v) succeeds and a
following Get(k) returns exactly v. -/
theorem C1_put_get_roundtrip (db : DB) (k : List String) (v : Bytes)
    (h1 : k ≠ []) (h2 : k.length ≤ MAX_SEGMENTS) :
    (save_chunk db k v).2 = .ok () ∧
    load_chunk (save_chunk db k v).1 k = .ok v := by
  simp only [save_chunk, load_chunk, if_neg h1, pad_segments_ok k h2]
  exact ⟨trivial, by rw [upsert_find]⟩

/-- Witness for C1 at the key ["doc1", "snap"] and payload [1, 2]. -/
theorem C1_put_get_roundtrip_witness :
    (["doc1", "snap"] ≠ ([] : List String)) ∧
    (["doc1", "snap"] : List String).length ≤ MAX_SEGMENTS ∧
    ((save_chunk [] ["doc1", "snap"] [1, 2]).2 = .ok () ∧
      load_chunk (save_chunk [] ["doc1", "snap"] [1, 2]).1 ["doc1", "snap"] =
        .ok [1, 2]) :=
  ⟨by decide, by decide,
    C1_put_get_roundtrip [] ["doc1", "snap"] [1, 2] (by decide) (by decide)⟩

/-- C4: on a table with at most one row per 4-slot key, Put(k, v1) then
Put(k, v2) then Get(k) returns v2, the at-most-one-row-per-key invariant
still holds afterwards, and exactly one row exists under the padded key. -/
theorem C4_overwrite (db : DB) (k : List String) (v1 v2 : Bytes)
    (h1 : k ≠ []) (h2 : k.length ≤ MAX_SEGMENTS)
    (huniq : ∀ s, db.countP (fun r => r.segs == s) ≤ 1) :
    load_chunk (save_chunk (save_chunk db k v1).1 k v2).1 k = .ok v2 ∧
    (∀ s, ((save_chunk (save_chunk db k v1).1 k v2).1).countP
        (fun r => r.segs == s) ≤ 1) ∧
    ((save_chunk (save_chunk db k v1).1 k v2).1).countP
        (fun r => r.segs == padded k) = 1 := by
  simp only [save_chunk, load_chunk, if_neg h1, pad_segments_ok k h2]
  refine ⟨by rw [upsert_find], fun s => ?_, ?_⟩
  · by_cases hs : s = padded k
    · subst hs
      rw [upsert_countP_self, upsert_countP_self]
      have := huniq (padded k)
      omega
    · rw [upsert_countP_other _ _ _ _ hs, upsert_countP_other _ _ _ _ hs]
      exact huniq s
  · rw [upsert_countP_self, upsert_countP_self]
    have := huniq (padded k)
    omega

/-- Witness for C4 at the key ["a"] over a one-row table. -/
theorem C4_overwrite_witness :
    (["a"] ≠ ([] : List String)) ∧
    (["a"] : List String).length ≤ MAX_SEGMENTS ∧
    (∀ s, ([⟨["x", "", "", ""], [9]⟩] : DB).countP
        (fun r => r.segs == s) ≤ 1) ∧
    (load_chunk
        (save_chunk (save_chunk [⟨["x", "", "", ""], [9]⟩] ["a"] [1]).1
          ["a"] [2]).1 ["a"] = .ok [2] ∧
      (∀ s, ((save_chunk (save_chunk [⟨["x", "", "", ""], [9]⟩] ["a"] [1]).1
          ["a"] [2]).1).countP (fun r => r.segs == s) ≤ 1) ∧
      ((save_chunk (save_chunk [⟨["x", "", "", ""], [9]⟩] ["a"] [1]).1
          ["a"] [2]).1).countP (fun r => r.segs == padded ["a"]) = 1) :=
  ⟨by decide, by decide,
    fun s => by simp only [List.countP_cons, List.countP_nil]; split <;> simp,
    C4_overwrite [⟨["x", "", "", ""], [9]⟩] ["a"] [1] [2] (by decide) (by decide)
      (fun s => by simp only [List.countP_cons, List.countP_nil]; split <;> simp)⟩

/-- C5: each of the five handlers fails with the 400 InvalidKey response
exactly when the supplied key sequence is empty or longer than
MAX_SEGMENTS; every key of length 1 to 4 passes the length check. -/
theorem C5_invalid_key_iff (db : DB) (k : List String) (v : Bytes) :
    (isInvalidKey (save_chunk db k v).2 = true ↔
      (k = [] ∨ MAX_SEGMENTS < k.length)) ∧
    (isInvalidKey (load_chunk db k) = true ↔
      (k = [] ∨ MAX_SEGMENTS < k.length)) ∧
    (isInvalidKey (remove_chunk db k).2 = true ↔
      (k = [] ∨ MAX_SEGMENTS < k.length)) ∧
    (isInvalidKey (load_range db k) = true ↔
      (k = [] ∨ MAX_SEGMENTS < k.length)) ∧
    (isInvalidKey (remove_range db k).2 = true ↔
      (k = [] ∨ MAX_SEGMENTS < k.length)) := by
  by_cases h1 : k = []
  · subst h1
    simp [save_chunk, load_chunk, remove_chunk, load_range, remove_range,
      isInvalidKey]
  · by_cases h2 : MAX_SEGMENTS < k.length
    · have hpad : pad_segments k =
          .error (.badRequest "Key cannot have more than 4 segments") := by
        simp [pad_segments, h2]
      simp [save_chunk, load_chunk, remove_chunk, load_range, remove_range,
        isInvalidKey, h1, h2, hpad]
    · have hpad := pad_segments_ok k (Nat.not_lt.mp h2)
      cases hf : db.find? (fun r => r.segs == padded k) with
      | none =>
        simp [save_chunk, load_chunk, remove_chunk, load_range, remove_range,
          isInvalidKey, h1, h2, hpad, hf]
      | some r =>
        simp [save_chunk, load_chunk, remove_chunk, load_range, remove_range,
          isInvalidKey, h1, h2, hpad, hf]

/-- C6: for every valid key, Delete succeeds whether or not a matching
record exists, a repeated Delete succeeds again, and a Get after the
Delete fails with the 404 NotFound response. -/
theorem C6_idempotent_delete (db : DB) (k : List String)
    (h1 : k ≠ []) (h2 : k.length ≤ MAX_SEGMENTS) :
    (remove_chunk db k).2 = .ok () ∧
    (remove_chunk (remove_chunk db k).1 k).2 = .ok () ∧
    load_chunk (remove_chunk db k).1 k = .error (.notFound "Item not found") := by
  simp only [remove_chunk, load_chunk, if_neg h1, pad_segments_ok k h2]
  exact ⟨trivial, trivial, by rw [find?_after_delete]⟩

/-- Witness for C6 at the key ["doc1", "snap"] over a table holding that
key and another one. -/
theorem C6_idempotent_delete_witness :
    (["doc1", "snap"] ≠ ([] : List String)) ∧
    (["doc1", "snap"] : List String).length ≤ MAX_SEGMENTS ∧
    ((remove_chunk [⟨["doc1", "snap", "", ""], [1]⟩, ⟨["x", "", "", ""], [2]⟩]
        ["doc1", "snap"]).2 = .ok () ∧
      (remove_chunk
        (remove_chunk [⟨["doc1", "snap", "", ""], [1]⟩, ⟨["x", "", "", ""], [2]⟩]
          ["doc1", "snap"]).1 ["doc1", "snap"]).2 = .ok () ∧
      load_chunk
        (remove_chunk [⟨["doc1", "snap", "", ""], [1]⟩, ⟨["x", "", "", ""], [2]⟩]
          ["doc1", "snap"]).1 ["doc1", "snap"] =
        .error (.notFound "Item not found")) :=
  ⟨by decide, by decide,
    C6_idempotent_delete [⟨["doc1", "snap", "", ""], [1]⟩, ⟨["x", "", "", ""], [2]⟩]
      ["doc1", "snap"] (by decide) (by decide)⟩

/-- C7: for every valid prefix, RangeDelete succeeds (also when nothing
matches), a RangeGet of the same prefix on the resulting table returns
the empty list, and a row survives the delete exactly when it was in the
table and its encoded key does not match the prefix. -/
theorem C7_range_delete_frame (db : DB) (p : List String)
    (h1 : p ≠ []) (h2 : p.length ≤ MAX_SEGMENTS) :
    (remove_range db p).2 = .ok () ∧
    load_range (remove_range db p).1 p = .ok [] ∧
    (∀ r : Row, r ∈ (remove_range db p).1 ↔ (r ∈ db ∧ segMatch p r = false)) := by
  have hc : ¬(p = [] ∨ MAX_SEGMENTS < p.length) := by
    push_neg
    exact ⟨h1, h2⟩
  simp only [remove_range, load_range, if_neg hc]
  refine ⟨trivial, ?_, ?_⟩
  · have hnil : (db.filter (fun r => !(segMatch p r))).filter (segMatch p) = [] := by
      rw [List.filter_eq_nil_iff]
      intro r hr
      simp only [List.mem_filter, Bool.not_eq_eq_eq_not, Bool.not_true] at hr
      simp [hr.2]
    rw [hnil]
    simp
  · intro r
    simp [List.mem_filter]

/-- Witness for C7 at the prefix ["a"] over a three-row table. -/
theorem C7_range_delete_frame_witness :
    (["a"] ≠ ([] : List String)) ∧
    (["a"] : List String).length ≤ MAX_SEGMENTS ∧
    ((remove_range [⟨["a", "b", "", ""], [1]⟩, ⟨["a", "c", "", ""], [2]⟩,
        ⟨["x", "", "", ""], [3]⟩] ["a"]).2 = .ok () ∧
      load_range (remove_range [⟨["a", "b", "", ""], [1]⟩, ⟨["a", "c", "", ""], [2]⟩,
        ⟨["x", "", "", ""], [3]⟩] ["a"]).1 ["a"] = .ok [] ∧
      (∀ r : Row, r ∈ (remove_range [⟨["a", "b", "", ""], [1]⟩, ⟨["a", "c", "", ""], [2]⟩,
        ⟨["x", "", "", ""], [3]⟩] ["a"]).1 ↔
        (r ∈ [⟨["a", "b", "", ""], [1]⟩, ⟨["a", "c", "", ""], [2]⟩,
          ⟨["x", "", "", ""], [3]⟩] ∧ segMatch ["a"] r = false))) :=
  ⟨by decide, by decide,
    C7_range_delete_frame [⟨["a", "b", "", ""], [1]⟩, ⟨["a", "c", "", ""], [2]⟩,
      ⟨["x", "", "", ""], [3]⟩] ["a"] (by decide) (by decide)⟩

/-- C8: for every key of 1 to 3 segments, appending an empty segment
yields the same encoded 4-slot key, so Put under the key with the empty
segment appended followed by Get under the key itself returns the
payload. -/
theorem C8_trailing_empty_collapse (db : DB) (k : List String) (v : Bytes)
    (h1 : k ≠ []) (h2 : k.length < MAX_SEGMENTS) :
    pad_segments (k ++ [""]) = pad_segments k ∧
    (save_chunk db (k ++ [""]) v).2 = .ok () ∧
    load_chunk (save_chunk db (k ++ [""]) v).1 k = .ok v := by
  have hpadeq : padded (k ++ [""]) = padded k := by
    simp only [padded, List.length_append, List.length_cons, List.length_nil]
    rw [List.append_assoc]
    congr 1
    have h4 : MAX_SEGMENTS - k.length = (MAX_SEGMENTS - (k.length + 1)) + 1 := by
      simp only [MAX_SEGMENTS] at h2 ⊢
      omega
    rw [h4, List.replicate_succ]
    rfl
  have hlen : (k ++ [""]).length ≤ MAX_SEGMENTS := by
    simp only [List.length_append, List.length_cons, List.length_nil]
    omega
  have hne : k ++ [""] ≠ [] := by simp
  refine ⟨?_, ?_, ?_⟩
  · rw [pad_segments_ok _ hlen, pad_segments_ok k (le_of_lt h2), hpadeq]
  · simp only [save_chunk, if_neg hne, pad_segments_ok _ hlen]
  · simp only [save_chunk, load_chunk, if_neg hne, if_neg h1,
      pad_segments_ok _ hlen, pad_segments_ok k (le_of_lt h2), hpadeq]
    rw [upsert_find]

/-- Witness for C8 at the key ["a", "b"] and payload [5]. -/
theorem C8_trailing_empty_collapse_witness :
    (["a", "b"] ≠ ([] : List String)) ∧
    (["a", "b"] : List String).length < MAX_SEGMENTS ∧
    (pad_segments (["a", "b"] ++ [""]) = pad_segments ["a", "b"] ∧
      (save_chunk [] (["a", "b"] ++ [""]) [5]).2 = .ok () ∧
      load_chunk (save_chunk [] (["a", "b"] ++ [""]) [5]).1 ["a", "b"] = .ok [5]) :=
  ⟨by decide, by decide,
    C8_trailing_empty_collapse [] ["a", "b"] [5] (by decide) (by decide)⟩

/-- C9: a point operation rejected with the 400 InvalidKey response does
not change the table: Put and Delete return the table unchanged, Get is a
pure read, and every key reads the same before and after the failed
call. -/
theorem C9_invalid_key_leaves_store (db : DB) (k : List String) (v : Bytes)
    (h : k = [] ∨ MAX_SEGMENTS < k.length) :
    (save_chunk db k v).1 = db ∧ isInvalidKey (save_chunk db k v).2 = true ∧
    (remove_chunk db k).1 = db ∧ isInvalidKey (remove_chunk db k).2 = true ∧
    isInvalidKey (load_chunk db k) = true ∧
    (∀ k2, load_chunk (save_chunk db k v).1 k2 = load_chunk db k2) ∧
    (∀ k2, load_chunk (remove_chunk db k).1 k2 = load_chunk db k2) := by
  rcases h with h | h
  · subst h
    simp [save_chunk, remove_chunk, load_chunk, isInvalidKey]
  · have h1 : k ≠ [] := by
      intro hk
      rw [hk] at h
      exact absurd h (by decide)
    have hpad : pad_segments k =
        .error (.badRequest "Key cannot have more than 4 segments") := by
      simp [pad_segments, h]
    simp [save_chunk, remove_chunk, load_chunk, isInvalidKey, h1, hpad]

/-- Witness for C9 at the five-segment key ["a", "b", "c", "d", "e"]. -/
theorem C9_invalid_key_leaves_store_witness :
    ((["a", "b", "c", "d", "e"] : List String) = [] ∨
      MAX_SEGMENTS < (["a", "b", "c", "d", "e"] : List String).length) ∧
    ((save_chunk [⟨["x", "", "", ""], [1]⟩] ["a", "b", "c", "d", "e"] [2]).1 =
        [⟨["x", "", "", ""], [1]⟩] ∧
      isInvalidKey (save_chunk [⟨["x", "", "", ""], [1]⟩]
        ["a", "b", "c", "d", "e"] [2]).2 = true ∧
      (remove_chunk [⟨["x", "", "", ""], [1]⟩] ["a", "b", "c", "d", "e"]).1 =
        [⟨["x", "", "", ""], [1]⟩] ∧
      isInvalidKey (remove_chunk [⟨["x", "", "", ""], [1]⟩]
        ["a", "b", "c", "d", "e"]).2 = true ∧
      isInvalidKey (load_chunk [⟨["x", "", "", ""], [1]⟩]
        ["a", "b", "c", "d", "e"]) = true ∧
      (∀ k2, load_chunk (save_chunk [⟨["x", "", "", ""], [1]⟩]
          ["a", "b", "c", "d", "e"] [2]).1 k2 =
        load_chunk [⟨["x", "", "", ""], [1]⟩] k2) ∧
      (∀ k2, load_chunk (remove_chunk [⟨["x", "", "", ""], [1]⟩]
          ["a", "b", "c", "d", "e"]).1 k2 =
        load_chunk [⟨["x", "", "", ""], [1]⟩] k2)) :=
  ⟨by decide,
    C9_invalid_key_leaves_store [⟨["x", "", "", ""], [1]⟩]
      ["a", "b", "c", "d", "e"] [2] (by decide)⟩

/-- C10: every logical key in a successful load_range response contains
no empty-string segment at all: the reconstruction keeps only the
non-empty slots of the encoded key. -/
theorem C10_range_keys_no_empty_segment (db : DB) (p : List String)
    (res : List RangeItem) (h : load_range db p = .ok res) :
    ∀ it ∈ res, ∀ s ∈ it.key, s ≠ "" := by
  intro it hit s hs
  by_cases hc : p = [] ∨ MAX_SEGMENTS < p.length
  · simp [load_range, hc] at h
  · simp only [load_range, if_neg hc, Except.ok.injEq] at h
    subst h
    simp only [List.mem_map] at hit
    obtain ⟨r, hr, rfl⟩ := hit
    simp only [decodeSlots, List.mem_filter] at hs
    simpa using hs.2

/-- Witness for C10: a record stored under the encoded key
["a", "", "b", ""] is reported by load_range with the logical key
["a", "b"], whose segments are all non-empty. -/
theorem C10_range_keys_no_empty_segment_witness :
    ("a" : String) ≠ "" ∧ ("b" : String) ≠ "" :=
  ⟨C10_range_keys_no_empty_segment [⟨["a", "", "b", ""], [2]⟩] ["a"]
      [⟨["a", "b"], [2]⟩] (by decide) ⟨["a", "b"], [2]⟩ (by decide) "a" (by decide),
    C10_range_keys_no_empty_segment [⟨["a", "", "b", ""], [2]⟩] ["a"]
      [⟨["a", "b"], [2]⟩] (by decide) ⟨["a", "b"], [2]⟩ (by decide) "b" (by decide)⟩

/-- Counterexample to C2 as stated: the logical key ["a", "", "b"] has an
empty segment in a non-trailing position, Put stores it under the encoded
key ["a", "", "b", ""], yet RangeGet reconstructs the logical key as
["a", "b"], not ["a", "", "b"]: the reconstruction drops the interior
empty slot as well, so decode is not the inverse of encode here. -/
theorem C2_decode_counterexample :
    (save_chunk [] ["a", "", "b"] [1]).2 = .ok () ∧
    load_range (save_chunk [] ["a", "", "b"] [1]).1 ["a", "", "b"] =
      .ok [⟨["a", "b"], [1]⟩] ∧
    decodeSlots (padded ["a", "", "b"]) = ["a", "b"] ∧
    (["a", "b"] : List String) ≠ ["a", "", "b"] := by
  refine ⟨by decide, by decide, by decide, by decide⟩

/-- C2 (amended): the reconstruction performed by load_range removes
every empty-string slot of the encoded key, not only the trailing
padding, so decode is the exact inverse of the padding encode precisely
for the logical keys that contain no empty segment anywhere. -/
theorem C2_decode_amended (k : List String) :
    decodeSlots (padded k) = k ↔ ∀ s ∈ k, s ≠ "" := by
  have hrep : decodeSlots (padded k) = k.filter (fun s => !(s == "")) := by
    have hpadnil : (List.replicate (MAX_SEGMENTS - k.length) "").filter
        (fun s => !(s == "")) = [] := by
      rw [List.filter_eq_nil_iff]
      intro a ha
      simp [List.eq_of_mem_replicate ha]
    simp [decodeSlots, padded, List.filter_append, hpadnil]
  rw [hrep]
  constructor
  · intro hf s hs
    have := List.filter_eq_self.mp hf s hs
    simpa using this
  · intro hall
    exact List.filter_eq_self.mpr (fun s hs => by simpa using hall s hs)

/-- C3: for a valid prefix p over a table whose rows all carry exactly
MAX_SEGMENTS slots (as every row written by the handlers does), RangeGet
returns exactly the records whose encoded key agrees with p slot-by-slot
on the first len(p) slots, each with the logical-key reconstruction
applied, and returns the empty list rather than an error when no record
matches. -/
theorem C3_load_range_exact (db : DB) (p : List String)
    (h1 : p ≠ []) (h2 : p.length ≤ MAX_SEGMENTS)
    (hwf : ∀ r ∈ db, r.segs.length = MAX_SEGMENTS) :
    load_range db p =
      .ok ((db.filter
          (fun r => decide (∀ i, i < p.length → r.segs.getD i "" = p.getD i ""))).map
        (fun r => { key := decodeSlots r.segs, data := r.data })) ∧
    ((∀ r ∈ db, ¬(∀ i, i < p.length → r.segs.getD i "" = p.getD i "")) →
      load_range db p = .ok []) := by
  have hc : ¬(p = [] ∨ MAX_SEGMENTS < p.length) := by
    push_neg
    exact ⟨h1, h2⟩
  have hfeq : db.filter (segMatch p) =
      db.filter (fun r =>
        decide (∀ i, i < p.length → r.segs.getD i "" = p.getD i "")) := by
    apply List.filter_congr
    intro r hr
    have hlen : p.length ≤ r.segs.length := le_of_le_of_eq h2 (hwf r hr).symm
    rw [Bool.eq_iff_iff]
    simp only [segMatch, beq_iff_eq, decide_eq_true_eq]
    exact take_eq_iff_pointwise r.segs p hlen
  constructor
  · simp only [load_range, if_neg hc, hfeq]
  · intro hnone
    have hnil : db.filter (segMatch p) = [] := by
      rw [hfeq, List.filter_eq_nil_iff]
      intro r hr
      simpa using hnone r hr
    simp [load_range, if_neg hc, hnil]

/-- Witness for C3 at the prefix ["a"] over a two-row table: only the
row whose first slot is "a" is returned, with its padding removed. -/
theorem C3_load_range_exact_witness :
    (["a"] ≠ ([] : List String)) ∧
    (["a"] : List String).length ≤ MAX_SEGMENTS ∧
    (∀ r ∈ ([⟨["a", "b", "", ""], [1]⟩, ⟨["x", "", "", ""], [2]⟩] : DB),
      r.segs.length = MAX_SEGMENTS) ∧
    (load_range [⟨["a", "b", "", ""], [1]⟩, ⟨["x", "", "", ""], [2]⟩] ["a"] =
      .ok ((([⟨["a", "b", "", ""], [1]⟩, ⟨["x", "", "", ""], [2]⟩] : DB).filter
          (fun r => decide (∀ i, i < (["a"] : List String).length →
            r.segs.getD i "" = (["a"] : List String).getD i ""))).map
        (fun r => { key := decodeSlots r.segs, data := r.data })) ∧
    ((∀ r ∈ ([⟨["a", "b", "", ""], [1]⟩, ⟨["x", "", "", ""], [2]⟩] : DB),
        ¬(∀ i, i < (["a"] : List String).length →
          r.segs.getD i "" = (["a"] : List String).getD i "")) →
      load_range [⟨["a", "b", "", ""], [1]⟩, ⟨["x", "", "", ""], [2]⟩] ["a"] =
        .ok [])) :=
  ⟨by decide, by decide, by decide,
    C3_load_range_exact [⟨["a", "b", "", ""], [1]⟩, ⟨["x", "", "", ""], [2]⟩]
      ["a"] (by decide) (by decide) (by decide)⟩

end StorageRouter
